import Mathlib

/-!
# Verification of the BRICS "Unit" TWAP server

Shallow embedding of the TWAP aggregation core of the `twap-b/B-twap`
repository: the sliding-window price store, the averaging helpers, the
basket-composition formulas of the several server variants, and the OHLC
candle engine.  JavaScript numbers are modelled as exact rationals (`ℚ`);
where a code path can produce a non-finite JS number (`NaN`, `±Infinity`,
arithmetic on `undefined`), values are modelled as `Option ℚ` with `none`
standing for every non-finite result.  Timestamps (`Date.now()`) are
modelled as integers in milliseconds.
-/

/-- The constant `TWAP_WINDOW_MS = 5000` — the 5-second TWAP window (all
variants). -/
def TWAP_WINDOW_MS : Int := 5000

/-- The constant `GOLD_G_PER_OZ = 31.1034768` — grams per troy ounce (all
variants). -/
def GOLD_G_PER_OZ : ℚ := 311034768 / 10000000

/-- The constant `UNIT_BASE_GOLD_G = 0.9823` — grams of gold per unit (all variants;
some variants spell it `UNIT_BASE_GOLD`). -/
def UNIT_BASE_GOLD_G : ℚ := 9823 / 10000

/-- The constant `GOLD_WEIGHT = 0.40` (all variants). -/
def GOLD_WEIGHT : ℚ := 40 / 100

/-- The constant `FX_WEIGHT = 0.12` (all variants). -/
def FX_WEIGHT : ℚ := 12 / 100

/-- The five basket currencies of `FX_LIST`. -/
inductive Ccy where
  | BRL
  | RUB
  | INR
  | CNY
  | ZAR
deriving DecidableEq, Repr

/-- The list `FX_LIST = ["BRL","RUB","INR","CNY","ZAR"]`. -/
def FX_LIST : List Ccy := [.BRL, .RUB, .INR, .CNY, .ZAR]

/-- One element `{ t, v }` of a price history (named `{ ts, value }` in the
older variants), with a numeric value. -/
structure Obs where
  t : Int
  v : ℚ
deriving DecidableEq, Repr

/-- The function `store(history, value)` from the locked `server.js` (`computeUnit`
variant) and `server3.js`; identical logic to `storePrice` in the older
variants.  It appends `{ t: now, v: value }` and returns the elements with
`now - t <= TWAP_WINDOW_MS` (the mutated original array is discarded by
every caller, which reassigns the returned filtered array). -/
def store (history : List Obs) (value : ℚ) (now : Int) : List Obs :=
  (history ++ [({ t := now, v := value } : Obs)]).filter
    (fun p => decide (now - p.t ≤ TWAP_WINDOW_MS))

/-- The reduction `history.reduce((s, p) => s + p.v, 0)` — the sum of the
stored values. -/
def sumValues (history : List Obs) : ℚ :=
  history.foldl (fun s p => s + p.v) 0

/-- The function `twap(history, fallback)` from the locked `server.js`: the fallback on an
empty history, otherwise the arithmetic mean of the stored values. -/
def twap (history : List Obs) (fallback : ℚ) : ℚ :=
  if history.length = 0 then fallback
  else sumValues history / history.length

/-- The nullable `twap(history)` of `server3.js` (second document) and of the
oldest `server.js` variant: `null` on an empty history, otherwise the mean.
Call sites apply a fallback with `?? fallback` (modelled by `Option.getD`). -/
def twapNull (history : List Obs) : Option ℚ :=
  if history.length = 0 then none
  else some (sumValues history / history.length)

/-- The `twap(history)` of `server3.js` (first document) and of the v2
simulation variant: `0` on an empty history, otherwise the mean. -/
def twapZero (history : List Obs) : ℚ :=
  if history.length = 0 then 0
  else sumValues history / history.length

/-- A JavaScript number, idealized: `some q` is a finite value modelled as an
exact rational, and `none` models every non-finite result (`NaN`,
`±Infinity`, or arithmetic on `undefined`/a missing object key).  In the code
paths embedded below a non-finite value arises only from a missing or
malformed FX rate (or division by a zero rate) and is never divided by, so
collapsing all non-finite values to `none` is faithful. -/
abbrev JSNum := Option ℚ

/-- JS addition: finite + finite is finite, anything else is non-finite. -/
def jadd : JSNum → JSNum → JSNum
  | some a, some b => some (a + b)
  | _, _ => none

/-- JS multiplication (on the embedded paths no non-finite value is ever
multiplied back to a finite one). -/
def jmul : JSNum → JSNum → JSNum
  | some a, some b => some (a * b)
  | _, _ => none

/-- JS division: division by zero or by/of a non-finite value is non-finite. -/
def jdiv : JSNum → JSNum → JSNum
  | some a, some b => if b = 0 then none else some (a / b)
  | _, _ => none

/-- A history element whose value may be a non-finite JS number (the FX
histories can receive `undefined`/`NaN` when a rate is missing). -/
structure JObs where
  t : Int
  v : JSNum
deriving DecidableEq, Repr

/-- The function `store(history, value)` over JS-number values (same code as
`store`). -/
def storeJ (history : List JObs) (value : JSNum) (now : Int) : List JObs :=
  (history ++ [({ t := now, v := value } : JObs)]).filter
    (fun p => decide (now - p.t ≤ TWAP_WINDOW_MS))

/-- The reduction `history.reduce((s, p) => s + p.v, 0)` over JS-number
values. -/
def sumValuesJ (history : List JObs) : JSNum :=
  history.foldl (fun s p => jadd s p.v) (some 0)

/-- The function `twap(history, fallback)` of the locked `server.js` over JS
numbers. -/
def twapJ (history : List JObs) (fallback : JSNum) : JSNum :=
  if history.length = 0 then fallback
  else jdiv (sumValuesJ history) (some history.length)

/-- The nullable `twap(history)` of the oldest `server.js` variant over JS
numbers.  Its `null` branch is unreachable in the embedded compute cycles
(they push before averaging), so conflating `null` with the other non-finite
values is harmless. -/
def twapNullJ (history : List JObs) : JSNum :=
  if history.length = 0 then none
  else jdiv (sumValuesJ history) (some history.length)

/-- The module-level mutable state of one server variant: `goldHistory` and
`fxHistory` (JS-number valued). -/
structure JState where
  goldHistory : List JObs
  fxHistory : Ccy → List JObs

/-- The startup state: all histories empty. -/
def initJState : JState := { goldHistory := [], fxHistory := fun _ => [] }

/-- The quote returned by `computeUnit` in the locked `server.js`
("BRICS Unit Basket v1 (locked, corrected)"). -/
structure UnitQuote where
  unit_usd : JSNum
  hundred_units_usd : JSNum
  unit_gold_grams : ℚ
  gold_usd_per_oz_twap : JSNum
  fx_usd_twap : Ccy → JSNum

/-- The function `computeUnit()` from the locked `server.js`, as a pure function of the
fetched inputs (`goldSpot`, `fxRates`), the mutable histories and the clock.
A missing `fxRates[c]` key reads as `undefined`, modelled by `none`. -/
def computeUnit (goldSpot : JSNum) (fxRates : Ccy → JSNum) (s : JState)
    (now : Int) : UnitQuote × JState :=
  let goldHistory := storeJ s.goldHistory goldSpot now
  let goldTWAP := twapJ goldHistory goldSpot
  let fxHistory := fun c => storeJ (s.fxHistory c) (fxRates c) now
  let fxTWAP := fun c => twapJ (fxHistory c) (fxRates c)
  let goldUSD :=
    jmul (jmul (jdiv (some UNIT_BASE_GOLD_G) (some GOLD_G_PER_OZ)) goldTWAP)
      (some GOLD_WEIGHT)
  let fxUSD := jmul goldUSD (jdiv (some (1 - GOLD_WEIGHT)) (some GOLD_WEIGHT))
  let unitUSD := jadd goldUSD fxUSD
  ({ unit_usd := unitUSD
     hundred_units_usd := jmul unitUSD (some 100)
     unit_gold_grams := UNIT_BASE_GOLD_G
     gold_usd_per_oz_twap := goldTWAP
     fx_usd_twap := fxTWAP },
   { goldHistory := goldHistory, fxHistory := fxHistory })

/-- The internal record returned by `generateUnitPrice` in the oldest
`server.js` variant and in the candle-serving variant (`src/unnamed/part_001`);
the route publishes `fxTWAP` as `fx_usd_twap` and `unitUSD` as `unit_usd`. -/
structure GenQuote where
  unitUSD : JSNum
  goldTWAP : JSNum
  fxTWAP : Ccy → JSNum
  unitGold : ℚ

/-- The function `generateUnitPrice()` from the oldest `server.js` variant and
`src/unnamed/part_001`, as a pure function of the fetched inputs.  Note that
it stores `1 / fxRates[ccy]` in the FX histories and that the FX TWAPs feed
into `unitUSD`. -/
def generateUnitPrice (goldUSDPerOz : JSNum) (fxRates : Ccy → JSNum)
    (s : JState) (now : Int) : GenQuote × JState :=
  let goldHistory := storeJ s.goldHistory goldUSDPerOz now
  let fxHistory := fun c =>
    storeJ (s.fxHistory c) (jdiv (some 1) (fxRates c)) now
  let goldTWAP := twapNullJ goldHistory
  let fxTWAP := fun c => twapNullJ (fxHistory c)
  let unitGold :=
    UNIT_BASE_GOLD_G * (GOLD_WEIGHT + FX_LIST.foldl (fun s _ => s + FX_WEIGHT) 0)
  let goldUSD :=
    jmul (jmul (some GOLD_WEIGHT) (some unitGold)) (jdiv goldTWAP (some GOLD_G_PER_OZ))
  let fxUSD :=
    FX_LIST.foldl
      (fun acc c => jadd acc (jmul (jmul (some FX_WEIGHT) (some unitGold)) (fxTWAP c)))
      (some 0)
  let unitUSD := jadd goldUSD fxUSD
  ({ unitUSD := unitUSD, goldTWAP := goldTWAP, fxTWAP := fxTWAP,
     unitGold := unitGold },
   { goldHistory := goldHistory, fxHistory := fxHistory })

/-- The module-level mutable state of the simulation variants (numeric-valued
histories). -/
structure QState where
  goldHistory : List Obs
  fxHistory : Ccy → List Obs

/-- The startup state of the simulation variants. -/
def initQState : QState := { goldHistory := [], fxHistory := fun _ => [] }

/-- One FX leg record `{ usd, local, rate }` of `server3.js` (`local` is a
Lean keyword, hence `localAmount`). -/
structure FxLeg where
  usd : ℚ
  localAmount : ℚ
  rate : ℚ
deriving DecidableEq, Repr

/-- The quote returned by `computeUnit` in `server3.js`
("BRICS Unit Basket v3 (simulation + multi-leg)"); the `gold` sub-object is
flattened into its `usd_value` field (the other two fields are the constants
`UNIT_BASE_GOLD_G` and the TWAP, restated below where needed). -/
structure V3Quote where
  gold_usd_per_oz_twap : ℚ
  gold_usd_value : ℚ
  fx : Ccy → FxLeg
  unit_usd : ℚ
  hundred_units_usd : ℚ

/-- The function `computeUnit()` from `server3.js` (v3), as a pure function of the
simulated inputs (`goldSpot`, `fxSpot`), the histories and the clock. -/
def computeUnitV3 (goldSpot : ℚ) (fxSpot : Ccy → ℚ) (s : QState)
    (now : Int) : V3Quote × QState :=
  let goldHistory := store s.goldHistory goldSpot now
  let goldTWAP := twapZero goldHistory
  let fxHistory := fun c => store (s.fxHistory c) (fxSpot c) now
  let fxTWAP := fun c => twapZero (fxHistory c)
  let goldUSD := (UNIT_BASE_GOLD_G / GOLD_G_PER_OZ) * goldTWAP
  let goldLegUSD := goldUSD * GOLD_WEIGHT
  let fxLegs : Ccy → FxLeg := fun c =>
    let usdValue := goldUSD * FX_WEIGHT / GOLD_WEIGHT
    { usd := usdValue, localAmount := usdValue * fxTWAP c, rate := fxTWAP c }
  let unitUSD := goldLegUSD + FX_LIST.foldl (fun acc c => acc + (fxLegs c).usd) 0
  ({ gold_usd_per_oz_twap := goldTWAP
     gold_usd_value := goldLegUSD
     fx := fxLegs
     unit_usd := unitUSD
     hundred_units_usd := unitUSD * 100 },
   { goldHistory := goldHistory, fxHistory := fxHistory })

/-- The quote returned by `computeUnitPrice` in the v2 simulation variant
(`src/unnamed/part_000`, also embedded verbatim after the README). -/
structure V2Quote where
  gold_usd_per_oz_twap : ℚ
  unit_gold_grams : ℚ
  unit_usd : ℚ
  hundred_units_usd : ℚ
  fx_usd_twap : Ccy → ℚ

/-- The function `computeUnitPrice()` from the v2 simulation variant
(`src/unnamed/part_000`), as a pure function of the simulated inputs. -/
def computeUnitPrice (goldSpot : ℚ) (fxSpot : Ccy → ℚ) (s : QState)
    (now : Int) : V2Quote × QState :=
  let goldHistory := store s.goldHistory goldSpot now
  let goldTWAP := twapZero goldHistory
  let fxHistory := fun c => store (s.fxHistory c) (fxSpot c) now
  let fxTWAP := fun c => twapZero (fxHistory c)
  let goldUSD := (UNIT_BASE_GOLD_G / GOLD_G_PER_OZ) * goldTWAP * GOLD_WEIGHT
  let fxUSD := FX_LIST.foldl (fun acc _ => acc + FX_WEIGHT * (goldUSD / GOLD_WEIGHT)) 0
  let unitUSD := goldUSD + fxUSD
  ({ gold_usd_per_oz_twap := goldTWAP
     unit_gold_grams := UNIT_BASE_GOLD_G
     unit_usd := unitUSD
     hundred_units_usd := unitUSD * 100
     fx_usd_twap := fxTWAP },
   { goldHistory := goldHistory, fxHistory := fxHistory })

/-- The constant `MAX_CANDLES = 1000` — cap on stored candles per
timeframe. -/
def MAX_CANDLES : ℕ := 1000

/-- One OHLC candle `{time, open, high, low, close}` (`open` is a Lean
keyword, hence `open_`); `time` is in unix seconds. -/
structure Candle where
  time : ℕ
  open_ : ℚ
  high : ℚ
  low : ℚ
  close : ℚ
deriving DecidableEq, Repr

/-- The function `getCandleTime(ts, tf_min)`: align a millisecond timestamp to the start
of its candle bucket, in seconds (`Math.floor` is `Nat` division here since
`Date.now()` is non-negative). -/
def getCandleTime (ts tfMin : ℕ) : ℕ :=
  ts / (tfMin * 60 * 1000) * tfMin * 60

/-- The slice `arr.slice(-n)`: the last `n` elements (for `n ≥ 1`; the routes guard
`n = 0` away with `parseInt(...) || default`). -/
def sliceLast (l : List Candle) (n : ℕ) : List Candle :=
  l.drop (l.length - n)

/-- The per-timeframe candle state: `candlesStore[tf]` and
`currentCandle[tf]` (absent key modelled as `none` / `[]`). -/
structure CandleState where
  candles : List Candle
  current : Option Candle

/-- The startup candle state for a timeframe. -/
def initCandleState : CandleState := { candles := [], current := none }

/-- The function `updateCandle(tf_min, price)` from the candle-serving variants
(`server.js` first document and `src/unnamed/part_001`), as a pure function
of the clock, for one timeframe. -/
def updateCandle (tfMin : ℕ) (ts : ℕ) (price : ℚ) (s : CandleState) :
    CandleState :=
  let candleTime := getCandleTime ts tfMin
  match s.current with
  | none =>
      { candles := s.candles
        current := some { time := candleTime, open_ := price, high := price,
                          low := price, close := price } }
  | some c =>
      if c.time = candleTime then
        { candles := s.candles
          current := some { c with high := max c.high price,
                                   low := min c.low price, close := price } }
      else
        let pushed := s.candles ++ [c]
        { candles := if MAX_CANDLES < pushed.length
                     then sliceLast pushed MAX_CANDLES else pushed
          current := some { time := candleTime, open_ := price, high := price,
                            low := price, close := price } }

/-- A sequence of internal updates `updateCandle(tf, price)` at given
timestamps (each `/latest.json` request performs one per timeframe). -/
def runUpdates (tfMin : ℕ) (s : CandleState) : List (ℕ × ℚ) → CandleState
  | [] => s
  | (ts, p) :: rest => runUpdates tfMin (updateCandle tfMin ts p s) rest

/-- The route `GET /ohlc`: serves `(candlesStore[tf] || []).slice(-limit)` — it reads
only the finished-candle store, never `currentCandle`. -/
def serveOhlc (s : CandleState) (limit : ℕ) : List Candle :=
  sliceLast s.candles limit

/-- Invariant of the candle engine: every stored (finished) candle comes from
a strictly earlier bucket than the open candle, and no candle is stored
before an open candle exists. -/
def CandleInv (s : CandleState) : Prop :=
  (∀ cc, s.current = some cc → ∀ c ∈ s.candles, c.time < cc.time) ∧
  (s.current = none → s.candles = [])

/-- The static fallback FX rate map
`{ BRL: 5, RUB: 90, INR: 83, CNY: 7.2, ZAR: 18 }` hard-coded in the fetch
fallbacks. -/
def fxRatesFull : Ccy → JSNum
  | .BRL => some 5
  | .RUB => some 90
  | .INR => some 83
  | .CNY => some (36 / 5)
  | .ZAR => some 18

/-- The same rate map with the `ZAR` key missing: reading it yields
`undefined`, modelled as a non-finite JS number. -/
def fxRatesNoZAR : Ccy → JSNum
  | .ZAR => none
  | c => fxRatesFull c

theorem sumValues_cons (p : Obs) (h : List Obs) :
    sumValues (p :: h) = p.v + sumValues h := by
  have key : ∀ (l : List Obs) (a : ℚ),
      l.foldl (fun s q => s + q.v) a = a + l.foldl (fun s q => s + q.v) 0 := by
    intro l
    induction l with
    | nil => intro a; simp
    | cons x xs ih =>
      intro a
      simp only [List.foldl_cons]
      rw [ih (a + x.v), ih (0 + x.v)]
      ring
  simp only [sumValues, List.foldl_cons]
  rw [key h (0 + p.v)]
  ring

theorem sumValues_eq_sum_map (h : List Obs) :
    sumValues h = (h.map Obs.v).sum := by
  induction h with
  | nil => rfl
  | cons p t ih => rw [sumValues_cons, List.map_cons, List.sum_cons, ih]

theorem store_eq_filter_concat (h : List Obs) (v : ℚ) (now : Int) :
    store h v now
      = h.filter (fun p => decide (now - p.t ≤ TWAP_WINDOW_MS))
        ++ [{ t := now, v := v }] := by
  unfold store
  rw [List.filter_append]
  congr 1
  simp [TWAP_WINDOW_MS]

theorem store_nil (v : ℚ) (now : Int) :
    store [] v now = [{ t := now, v := v }] := by
  rw [store_eq_filter_concat]
  rfl

theorem store_ne_nil (h : List Obs) (v : ℚ) (now : Int) :
    store h v now ≠ [] := by
  rw [store_eq_filter_concat]
  simp

theorem store_getLast? (h : List Obs) (v : ℚ) (now : Int) :
    (store h v now).getLast? = some { t := now, v := v } := by
  rw [store_eq_filter_concat]
  exact List.getLast?_concat _

theorem twap_singleton (p : Obs) (fb : ℚ) : twap [p] fb = p.v := by
  simp [twap, sumValues]

theorem mem_store_iff (h : List Obs) (v : ℚ) (now : Int) (p : Obs) :
    p ∈ store h v now
      ↔ (p ∈ h ∨ p = { t := now, v := v }) ∧ now - p.t ≤ TWAP_WINDOW_MS := by
  unfold store
  rw [List.mem_filter, List.mem_append, List.mem_singleton, decide_eq_true_iff]

theorem getCandleTime_mono (tf : ℕ) {ts ts' : ℕ} (h : ts ≤ ts') :
    getCandleTime ts tf ≤ getCandleTime ts' tf := by
  unfold getCandleTime
  exact Nat.mul_le_mul_right _ (Nat.mul_le_mul_right _ (Nat.div_le_div_right h))

theorem sliceLast_subset (l : List Candle) (n : ℕ) :
    ∀ c ∈ sliceLast l n, c ∈ l :=
  fun _ hc => List.drop_subset _ _ hc

theorem updateCandle_inv (tf ts : ℕ) (p : ℚ) (s : CandleState)
    (hinv : CandleInv s)
    (hle : ∀ cc, s.current = some cc → cc.time ≤ getCandleTime ts tf) :
    CandleInv (updateCandle tf ts p s) ∧
    ∀ cc, (updateCandle tf ts p s).current = some cc →
      cc.time ≤ getCandleTime ts tf := by
  obtain ⟨hlt, hnil⟩ := hinv
  cases hcur : s.current with
  | none =>
    simp only [updateCandle, hcur]
    refine ⟨⟨?_, ?_⟩, ?_⟩
    · intro cc hcc c hc
      rw [hnil hcur] at hc
      cases hc
    · intro hnone
      cases hnone
    · intro cc hcc
      cases hcc
      exact le_refl _
  | some c =>
    by_cases hct : c.time = getCandleTime ts tf
    · simp only [updateCandle, hcur, hct, if_pos]
      refine ⟨⟨?_, ?_⟩, ?_⟩
      · intro cc hcc c' hc'
        cases hcc
        exact hct ▸ hlt c hcur c' hc'
      · intro hnone
        cases hnone
      · intro cc hcc
        cases hcc
        exact le_refl _
    · simp only [updateCandle, hcur, hct, if_neg, if_false]
      have hclt : c.time < getCandleTime ts tf :=
        lt_of_le_of_ne (hle c hcur) hct
      refine ⟨⟨?_, ?_⟩, ?_⟩
      · intro cc hcc c' hc'
        cases hcc
        have hmem : c' ∈ s.candles ++ [c] := by
          by_cases hlen : MAX_CANDLES < (s.candles ++ [c]).length
          · simp only [if_pos hlen] at hc'
            exact sliceLast_subset _ _ _ hc'
          · simp only [if_neg hlen] at hc'
            exact hc'
        rcases List.mem_append.mp hmem with hmem | hmem
        · exact lt_trans (hlt c hcur c' hmem) hclt
        · rw [List.mem_singleton.mp hmem]
          exact hclt
      · intro hnone
        cases hnone
      · intro cc hcc
        cases hcc
        exact le_refl _

theorem runUpdates_inv (tf : ℕ) :
    ∀ (updates : List (ℕ × ℚ)) (s : CandleState),
      List.Pairwise (· ≤ ·) (updates.map Prod.fst) →
      CandleInv s →
      (∀ cc, s.current = some cc →
        ∀ u ∈ updates, cc.time ≤ getCandleTime u.1 tf) →
      CandleInv (runUpdates tf s updates) := by
  intro updates
  induction updates with
  | nil =>
    intro s _ hinv _
    exact hinv
  | cons u rest ih =>
    intro s hpair hinv hle
    obtain ⟨ts, p⟩ := u
    simp only [List.map_cons, List.pairwise_cons] at hpair
    obtain ⟨hhead, hrest⟩ := hpair
    have hstep := updateCandle_inv tf ts p s hinv
      (fun cc hcc => hle cc hcc (ts, p) (List.mem_cons_self _ _))
    simp only [runUpdates]
    apply ih _ hrest hstep.1
    intro cc hcc u' hu'
    calc cc.time ≤ getCandleTime ts tf := hstep.2 cc hcc
      _ ≤ getCandleTime u'.1 tf :=
        getCandleTime_mono tf (hhead u'.1 (List.mem_map_of_mem Prod.fst hu'))

/-- C2: for every Price Store whose retained window is empty, the average
operation returns the caller-supplied fallback (never an error): `twap` with
its fallback parameter in the locked server, and the nullable `twap` composed
with `?? fallback` at its call sites in `server3.js`; and the first compute
cycle after startup (push of the raw spot value into an empty store, then
average) yields the raw spot value as a one-sample average. -/
theorem c2_empty_window_fallback :
    (∀ fb : ℚ, twap [] fb = fb) ∧
    (∀ fb : ℚ, (twapNull []).getD fb = fb) ∧
    (∀ (v fb : ℚ) (now : Int), twap (store [] v now) fb = v) ∧
    (∀ (v fb : ℚ) (now : Int), (twapNull (store [] v now)).getD fb = v) := by
  refine ⟨fun fb => rfl, fun fb => rfl, ?_, ?_⟩
  · intro v fb now
    rw [store_nil]
    exact twap_singleton _ _
  · intro v fb now
    rw [store_nil]
    simp [twapNull, sumValues]

/-- C3 counterexample: pushing value `10` at `t0 = 0` and querying the
average later (the claimed query time `t0 + 5001` — the read does not take a
clock at all) returns `10`, the stale value, not the fallback `99`: the
empty-window fallback is not reached because eviction happens only inside a
push. -/
theorem c3_counterexample :
    twap (store [] 10 0) 99 = 10 ∧ (10 : ℚ) ≠ 99 := by
  constructor
  · rw [store_nil]
    exact twap_singleton _ _
  · norm_num

/-- C3 (amended): after pushing a single value at `t0`, a later average read
with no intervening push returns the pushed value whatever the elapsed time
(reads never filter by time), and only the next push-and-evict — at
`t0 + WINDOW + 1` here — removes the expired observation. -/
theorem c3_stale_read_until_next_push (v w fb : ℚ) (t0 : Int) :
    twap (store [] v t0) fb = v ∧
    store (store [] v t0) w (t0 + 5001) = [{ t := t0 + 5001, v := w }] := by
  constructor
  · rw [store_nil]
    exact twap_singleton _ _
  · rw [store_nil, store_eq_filter_concat]
    have h1 : List.filter
        (fun p => decide (t0 + 5001 - p.t ≤ TWAP_WINDOW_MS))
        [({ t := t0, v := v } : Obs)] = [] := by
      rw [List.filter_cons, List.filter_nil]
      have h2 : (decide (t0 + 5001 - ({ t := t0, v := v } : Obs).t
          ≤ TWAP_WINDOW_MS)) = false := by
        apply decide_eq_false
        show ¬(t0 + 5001 - t0 ≤ TWAP_WINDOW_MS)
        unfold TWAP_WINDOW_MS
        omega
      rw [h2]
      simp
    rw [h1]
    rfl

/-- C4: after any push-and-evict at time `now` (from any prior history, hence
after any sequence of such operations), every retained observation satisfies
`now - t ≤ TWAP_WINDOW_MS`, and an observation is retained exactly when it
was present (or is the one just appended) and is within the window — i.e.
exactly the elements with `now - t > TWAP_WINDOW_MS` are removed. -/
theorem c4_push_evict_window (h : List Obs) (v : ℚ) (now : Int) :
    (∀ p ∈ store h v now, now - p.t ≤ TWAP_WINDOW_MS) ∧
    (∀ p : Obs, p ∈ store h v now ↔
      (p ∈ h ∨ p = { t := now, v := v }) ∧ now - p.t ≤ TWAP_WINDOW_MS) := by
  refine ⟨?_, fun p => mem_store_iff h v now p⟩
  intro p hp
  exact ((mem_store_iff h v now p).mp hp).2

/-- Witness for `c4_push_evict_window`: pushing at `now = 6000` onto a
history holding an observation at `t = 0`, the membership characterisation
holds at that (evicted, since `6000 - 0 > 5000`) observation. -/
theorem c4_push_evict_window_witness :
    ({ t := 0, v := 1 } : Obs) ∈
        store [{ t := 0, v := 1 }, { t := 2000, v := 2 }] 3 6000 ↔
      ((({ t := 0, v := 1 } : Obs) ∈
          ([{ t := 0, v := 1 }, { t := 2000, v := 2 }] : List Obs) ∨
        ({ t := 0, v := 1 } : Obs) = { t := 6000, v := 3 }) ∧
        (6000 : Int) - ({ t := 0, v := 1 } : Obs).t ≤ TWAP_WINDOW_MS) :=
  (c4_push_evict_window [{ t := 0, v := 1 }, { t := 2000, v := 2 }] 3 6000).2
    { t := 0, v := 1 }

/-- C8: on a non-empty store, `twap` is the equal-weight arithmetic mean of
the retained values; the result depends only on the multiset of values (not
on timestamps or elapsed time); and values `[10, 20, 30]` average to `20`. -/
theorem c8_twap_arithmetic_mean (h1 h2 : List Obs) (fb fb1 fb2 : ℚ)
    (hne : h1 ≠ [])
    (hvals : (↑(h1.map Obs.v) : Multiset ℚ) = ↑(h2.map Obs.v)) :
    twap h1 fb = (h1.map Obs.v).sum / (h1.map Obs.v).length ∧
    twap h1 fb1 = twap h2 fb2 ∧
    twap [{ t := 0, v := 10 }, { t := 50, v := 20 }, { t := 4000, v := 30 }]
      fb = 20 := by
  have hperm : (h1.map Obs.v).Perm (h2.map Obs.v) := Multiset.coe_eq_coe.mp hvals
  have hlen1 : h1.length ≠ 0 := fun hl => hne (List.length_eq_zero.mp hl)
  have hlen2 : h2.length ≠ 0 := by
    have := hperm.length_eq
    rw [List.length_map, List.length_map] at this
    omega
  have hmean : ∀ (h : List Obs) (fb' : ℚ), h.length ≠ 0 →
      twap h fb' = (h.map Obs.v).sum / (h.map Obs.v).length := by
    intro h fb' hl
    rw [twap, if_neg hl, sumValues_eq_sum_map, List.length_map]
  refine ⟨hmean h1 fb hlen1, ?_, ?_⟩
  · rw [hmean h1 fb1 hlen1, hmean h2 fb2 hlen2, hperm.sum_eq, hperm.length_eq]
  · rw [twap]
    norm_num [sumValues]

/-- Witness for `c8_twap_arithmetic_mean`: two histories with the same values
`[10, 20]` under different timestamps, with the mean `15` computed. -/
theorem c8_twap_arithmetic_mean_witness :
    (([{ t := 0, v := 10 }, { t := 1, v := 20 }] : List Obs) ≠ []) ∧
    (↑(([{ t := 0, v := 10 }, { t := 1, v := 20 }] : List Obs).map Obs.v) :
        Multiset ℚ)
      = ↑(([{ t := 7, v := 10 }, { t := 9, v := 20 }] : List Obs).map Obs.v) ∧
    (twap [{ t := 0, v := 10 }, { t := 1, v := 20 }] 42
        = (([{ t := 0, v := 10 }, { t := 1, v := 20 }] : List Obs).map
            Obs.v).sum
          / (([{ t := 0, v := 10 }, { t := 1, v := 20 }] : List Obs).map
              Obs.v).length ∧
      twap [{ t := 0, v := 10 }, { t := 1, v := 20 }] 0
        = twap [{ t := 7, v := 10 }, { t := 9, v := 20 }] 1 ∧
      twap [{ t := 0, v := 10 }, { t := 50, v := 20 }, { t := 4000, v := 30 }]
        42 = 20) :=
  ⟨by decide, rfl,
    c8_twap_arithmetic_mean _ _ 42 0 1 (by decide) rfl⟩

/-- C9: push-and-evict always retains the observation it just appended
(`now - now = 0` is within the window): the result is non-empty, its last
element is the new observation, and an average read immediately after the
push never takes the empty-store branch — its result is independent of the
fallback argument. -/
theorem c9_push_retains_new (h : List Obs) (v : ℚ) (now : Int)
    (fb1 fb2 : ℚ) :
    store h v now ≠ [] ∧
    (store h v now).getLast? = some { t := now, v := v } ∧
    twap (store h v now) fb1 = twap (store h v now) fb2 := by
  refine ⟨store_ne_nil h v now, store_getLast? h v now, ?_⟩
  have hlen : (store h v now).length ≠ 0 :=
    fun hl => store_ne_nil h v now (List.length_eq_zero.mp hl)
  rw [twap, twap, if_neg hlen, if_neg hlen]

theorem storeJ_eq_filter_concat (h : List JObs) (v : JSNum) (now : Int) :
    storeJ h v now
      = h.filter (fun p => decide (now - p.t ≤ TWAP_WINDOW_MS))
        ++ [{ t := now, v := v }] := by
  unfold storeJ
  rw [List.filter_append]
  congr 1
  simp [TWAP_WINDOW_MS]

theorem storeJ_nil (v : JSNum) (now : Int) :
    storeJ [] v now = [{ t := now, v := v }] := by
  rw [storeJ_eq_filter_concat]
  rfl

/-- C10: (a) after any monotone sequence of internal updates from startup,
every candle served by `GET /ohlc` is from a strictly earlier bucket than the
currently-open candle — the open candle is never included; (b) an update
falling into the same bucket as the open candle leaves the served list
unchanged (the in-progress candle lives only in `currentCandle` until a
subsequent update falls into a strictly different bucket). -/
theorem c10_ohlc_excludes_open_candle (tf limit : ℕ)
    (updates : List (ℕ × ℚ))
    (hmono : List.Pairwise (· ≤ ·) (updates.map Prod.fst)) :
    (∀ cc, (runUpdates tf initCandleState updates).current = some cc →
      ∀ c ∈ serveOhlc (runUpdates tf initCandleState updates) limit,
        c.time < cc.time) ∧
    (∀ (s : CandleState) (cc : Candle) (ts : ℕ) (p : ℚ),
      s.current = some cc → getCandleTime ts tf = cc.time →
      serveOhlc (updateCandle tf ts p s) limit = serveOhlc s limit) := by
  constructor
  · have hinit : CandleInv initCandleState := by
      constructor
      · intro cc hcc
        simp [initCandleState] at hcc
      · intro _
        rfl
    have hinv := runUpdates_inv tf updates initCandleState hmono hinit
      (by intro cc hcc; simp [initCandleState] at hcc)
    intro cc hcc c hc
    exact hinv.1 cc hcc c (sliceLast_subset _ _ c hc)
  · intro s cc ts p hcur hbucket
    unfold updateCandle
    rw [hcur]
    simp only
    rw [if_pos hbucket.symm]
    rfl

/-- Witness for `c10_ohlc_excludes_open_candle`: three updates `100, 105, 98`
on the 1-minute timeframe, the first two in bucket `0` and the third in
bucket `60`; the finished bucket-`0` candle is served and its bucket strictly
precedes the open candle's bucket. -/
theorem c10_ohlc_excludes_open_candle_witness :
    List.Pairwise (· ≤ ·)
      (([(0, 100), (30000, 105), (70000, 98)] : List (ℕ × ℚ)).map
        Prod.fst) ∧
    ({ time := 0, open_ := 100, high := 105, low := 100, close := 105 } :
        Candle).time
      < ({ time := 60, open_ := 98, high := 98, low := 98, close := 98 } :
          Candle).time :=
  ⟨by decide,
    (c10_ohlc_excludes_open_candle 1 5 [(0, 100), (30000, 105), (70000, 98)]
          (by decide)).1
      { time := 60, open_ := 98, high := 98, low := 98, close := 98 }
      (by decide)
      { time := 0, open_ := 100, high := 105, low := 100, close := 105 }
      (by decide)⟩

theorem twapJ_storeJ_nil_some (q : ℚ) (now : Int) (fb : JSNum) :
    twapJ (storeJ [] (some q) now) fb = some q := by
  rw [storeJ_nil]
  simp [twapJ, sumValuesJ, jadd, jdiv]

theorem twapNullJ_storeJ_nil_some (q : ℚ) (now : Int) :
    twapNullJ (storeJ [] (some q) now) = some q := by
  rw [storeJ_nil]
  simp [twapNullJ, sumValuesJ, jadd, jdiv]

theorem twapNullJ_storeJ_nil_none (now : Int) :
    twapNullJ (storeJ [] none now) = none := by
  rw [storeJ_nil]
  simp [twapNullJ, sumValuesJ, jadd, jdiv]

theorem computeUnit_gold_twap_first (g : ℚ) (fxRates : Ccy → JSNum)
    (now : Int) :
    (computeUnit (some g) fxRates initJState now).1.gold_usd_per_oz_twap
      = some g := by
  simp only [computeUnit, initJState]
  exact twapJ_storeJ_nil_some g now (some g)

/-- C1 counterexample: at the first compute cycle with `goldTWAP = 1900` (and
the frozen `goldGramsPerUnit = 0.9823`), the locked `computeUnit` returns
`unit_usd = 0.9823 / 31.1034768 * 1900`, which lies strictly between 59 and
61 (≈ 60.00, `hundred_units_usd` ≈ 6000.4) — not ≈ 149.98 / ≈ 14998.7 as
claimed. -/
theorem c1_counterexample :
    (computeUnit (some 1900) fxRatesFull initJState 0).1.unit_usd
        = some (UNIT_BASE_GOLD_G / GOLD_G_PER_OZ * 1900) ∧
    (59 : ℚ) < UNIT_BASE_GOLD_G / GOLD_G_PER_OZ * 1900 ∧
    UNIT_BASE_GOLD_G / GOLD_G_PER_OZ * 1900 < 61 ∧
    (computeUnit (some 1900) fxRatesFull initJState 0).1.hundred_units_usd
        = some (UNIT_BASE_GOLD_G / GOLD_G_PER_OZ * 1900 * 100) := by
  have hG : GOLD_G_PER_OZ ≠ 0 := by norm_num [GOLD_G_PER_OZ]
  have hW : GOLD_WEIGHT ≠ 0 := by norm_num [GOLD_WEIGHT]
  have hgt : twapJ (storeJ [] (some (1900 : ℚ)) 0) (some 1900) = some 1900 :=
    twapJ_storeJ_nil_some 1900 0 (some 1900)
  refine ⟨?_, ?_, ?_, ?_⟩
  · simp only [computeUnit, initJState]
    rw [hgt]
    simp only [jdiv, jmul, jadd, if_neg hG, if_neg hW]
    congr 1
    field_simp
    ring
  · norm_num [UNIT_BASE_GOLD_G, GOLD_G_PER_OZ]
  · norm_num [UNIT_BASE_GOLD_G, GOLD_G_PER_OZ]
  · simp only [computeUnit, initJState]
    rw [hgt]
    simp only [jdiv, jmul, jadd, if_neg hG, if_neg hW]
    congr 1
    field_simp
    ring

/-- C1 (amended): in the locked `computeUnit` the total unit value is still
derived from the gold leg alone, `unitUSD = goldUSD / GOLD_WEIGHT`, but the
code's gold leg is `goldUSD = (goldGramsPerUnit / 31.1034768) * goldTWAP *
GOLD_WEIGHT`, so `unitUSD = (goldGramsPerUnit / 31.1034768) * goldTWAP`
(≈ 60.00, with `hundred_units_usd` ≈ 6000.4, at `goldTWAP = 1900`). -/
theorem c1_unit_from_gold_leg (goldSpot : JSNum) (fxRates : Ccy → JSNum)
    (s : JState) (now : Int) (g : ℚ)
    (hg : (computeUnit goldSpot fxRates s now).1.gold_usd_per_oz_twap
      = some g) :
    (computeUnit goldSpot fxRates s now).1.unit_usd
        = some (UNIT_BASE_GOLD_G / GOLD_G_PER_OZ * g * GOLD_WEIGHT
                  / GOLD_WEIGHT) ∧
    (computeUnit goldSpot fxRates s now).1.unit_usd
        = some (UNIT_BASE_GOLD_G / GOLD_G_PER_OZ * g) ∧
    (computeUnit goldSpot fxRates s now).1.hundred_units_usd
        = some (UNIT_BASE_GOLD_G / GOLD_G_PER_OZ * g * 100) := by
  have hG : GOLD_G_PER_OZ ≠ 0 := by norm_num [GOLD_G_PER_OZ]
  have hW : GOLD_WEIGHT ≠ 0 := by norm_num [GOLD_WEIGHT]
  simp only [computeUnit] at hg ⊢
  rw [hg]
  simp only [jdiv, jmul, jadd, if_neg hG, if_neg hW]
  refine ⟨?_, ?_, ?_⟩ <;>
    · congr 1
      field_simp
      ring

/-- Witness for `c1_unit_from_gold_leg`: the first compute cycle with
`goldSpot = 1900` has `gold_usd_per_oz_twap = 1900`, and the conclusions hold
there. -/
theorem c1_unit_from_gold_leg_witness :
    (computeUnit (some 1900) fxRatesNoZAR initJState 5).1.gold_usd_per_oz_twap
        = some 1900 ∧
    ((computeUnit (some 1900) fxRatesNoZAR initJState 5).1.unit_usd
        = some (UNIT_BASE_GOLD_G / GOLD_G_PER_OZ * 1900 * GOLD_WEIGHT
                  / GOLD_WEIGHT) ∧
      (computeUnit (some 1900) fxRatesNoZAR initJState 5).1.unit_usd
        = some (UNIT_BASE_GOLD_G / GOLD_G_PER_OZ * 1900) ∧
      (computeUnit (some 1900) fxRatesNoZAR initJState 5).1.hundred_units_usd
        = some (UNIT_BASE_GOLD_G / GOLD_G_PER_OZ * 1900 * 100)) :=
  ⟨computeUnit_gold_twap_first 1900 fxRatesNoZAR 5,
    c1_unit_from_gold_leg (some 1900) fxRatesNoZAR initJState 5 1900
      (computeUnit_gold_twap_first 1900 fxRatesNoZAR 5)⟩

/-- C5 counterexample: in `generateUnitPrice` (oldest `server.js` variant and
`src/unnamed/part_001`), a first cycle with raw fetched rate `BRL = 5`
publishes `fx_usd_twap.BRL = 1/5` — the average of the stored reciprocals
`1/rate`, not of the raw rates (which would give `5`). -/
theorem c5_counterexample :
    (generateUnitPrice (some 1900) fxRatesFull initJState 0).1.fxTWAP Ccy.BRL
        = some (1 / 5) ∧
    (1 / 5 : ℚ) ≠ 5 := by
  constructor
  · simp only [generateUnitPrice, initJState]
    have h5 : jdiv (some 1) (fxRatesFull Ccy.BRL) = some ((1 : ℚ) / 5) := by
      norm_num [fxRatesFull, jdiv]
    rw [h5]
    exact twapNullJ_storeJ_nil_some (1 / 5) 0
  · norm_num

/-- C5 (amended): the locked `computeUnit` stores and averages the raw
USD→currency rates — a first cycle publishes the raw rate itself as
`fx_usd_twap[c]` — whereas the `generateUnitPrice` variants store the
reciprocal `1/rate` and publish the average of reciprocals. -/
theorem c5_rate_convention (goldSpot : JSNum) (fxRates : Ccy → JSNum)
    (s : JState) (now : Int) (c : Ccy) (q : ℚ)
    (hq : fxRates c = some q) (hq0 : q ≠ 0) (hh : s.fxHistory c = []) :
    (computeUnit goldSpot fxRates s now).1.fx_usd_twap c = some q ∧
    (generateUnitPrice goldSpot fxRates s now).1.fxTWAP c = some (1 / q) := by
  constructor
  · simp only [computeUnit]
    rw [hh, hq, storeJ_nil]
    simp [twapJ, sumValuesJ, jadd, jdiv]
  · simp only [generateUnitPrice]
    rw [hh, hq]
    simp only [jdiv, if_neg hq0]
    rw [storeJ_nil]
    simp [twapNullJ, sumValuesJ, jadd, jdiv]

/-- Witness for `c5_rate_convention`: first cycle with the INR rate `83`. -/
theorem c5_rate_convention_witness :
    fxRatesFull Ccy.INR = some 83 ∧ (83 : ℚ) ≠ 0 ∧
    initJState.fxHistory Ccy.INR = [] ∧
    ((computeUnit (some 1900) fxRatesFull initJState 0).1.fx_usd_twap Ccy.INR
        = some 83 ∧
      (generateUnitPrice (some 1900) fxRatesFull initJState 0).1.fxTWAP
          Ccy.INR = some (1 / 83)) :=
  ⟨rfl, by norm_num, rfl,
    c5_rate_convention (some 1900) fxRatesFull initJState 0 Ccy.INR 83 rfl
      (by norm_num) rfl⟩

/-- C7 (amended): the locked `computeUnit` is a total function (never
throws); `unit_usd` and `hundred_units_usd` do not read the FX rate map at
all, so they are identical whatever the rates; a missing or non-numeric rate
degrades only that leg's `fx_usd_twap` entry to `NaN` (serialised `null`).
In the `generateUnitPrice` variants the FX TWAPs do feed into `unit_usd`
(see the counterexample). -/
theorem c7_fx_failure_graceful (goldSpot : JSNum) (fxA fxB : Ccy → JSNum)
    (s : JState) (now : Int) (c : Ccy)
    (hmiss : fxA c = none) (hh : s.fxHistory c = []) :
    (computeUnit goldSpot fxA s now).1.unit_usd
        = (computeUnit goldSpot fxB s now).1.unit_usd ∧
    (computeUnit goldSpot fxA s now).1.hundred_units_usd
        = (computeUnit goldSpot fxB s now).1.hundred_units_usd ∧
    (computeUnit goldSpot fxA s now).1.fx_usd_twap c = none := by
  refine ⟨rfl, rfl, ?_⟩
  simp only [computeUnit]
  rw [hh, hmiss, storeJ_nil]
  simp [twapJ, sumValuesJ, jadd, jdiv]

/-- Witness for `c7_fx_failure_graceful`: the map with `ZAR` missing against
the full map, at the first compute cycle. -/
theorem c7_fx_failure_graceful_witness :
    fxRatesNoZAR Ccy.ZAR = none ∧ initJState.fxHistory Ccy.ZAR = [] ∧
    ((computeUnit (some 1900) fxRatesNoZAR initJState 0).1.unit_usd
        = (computeUnit (some 1900) fxRatesFull initJState 0).1.unit_usd ∧
      (computeUnit (some 1900) fxRatesNoZAR initJState 0).1.hundred_units_usd
        = (computeUnit (some 1900)
            fxRatesFull initJState 0).1.hundred_units_usd ∧
      (computeUnit (some 1900) fxRatesNoZAR initJState 0).1.fx_usd_twap
          Ccy.ZAR = none) :=
  ⟨rfl, rfl,
    c7_fx_failure_graceful (some 1900) fxRatesNoZAR fxRatesFull initJState 0
      Ccy.ZAR rfl rfl⟩

/-- C7 counterexample: in `generateUnitPrice` (`src/unnamed/part_001` and the
oldest `server.js` variant) the FX rates feed into `unit_usd`: with the `ZAR`
key missing, the first cycle's `unitUSD` is `NaN` (serialised `null`), not
the value computed when `ZAR` is present. -/
theorem c7_counterexample :
    (generateUnitPrice (some 1900) fxRatesNoZAR initJState 0).1.unitUSD
        = none ∧
    (generateUnitPrice (some 1900) fxRatesFull initJState 0).1.unitUSD
        ≠ none := by
  constructor
  · simp only [generateUnitPrice, initJState, FX_LIST, List.foldl_cons,
      List.foldl_nil]
    norm_num [fxRatesNoZAR, fxRatesFull, jdiv, jadd, jmul,
      twapNullJ_storeJ_nil_some, twapNullJ_storeJ_nil_none,
      GOLD_G_PER_OZ]
  · simp only [generateUnitPrice, initJState, FX_LIST, List.foldl_cons,
      List.foldl_nil]
    norm_num [fxRatesNoZAR, fxRatesFull, jdiv, jadd, jmul,
      twapNullJ_storeJ_nil_some, twapNullJ_storeJ_nil_none,
      GOLD_G_PER_OZ]
    exact Option.some_ne_none _

theorem twapZero_store_nil (q : ℚ) (now : Int) :
    twapZero (store [] q now) = q := by
  rw [store_nil]
  simp [twapZero, sumValues]

/-- C6 (the code evaluated at the failing input): in `server3.js`'s
`computeUnit`, at the first compute cycle with `goldSpot = 1900`, the five FX
leg USD allocations do not sum to `unit_usd * (1 - GOLD_WEIGHT)` and a
single leg is not `unit_usd * FX_WEIGHT` (the `GOLD_WEIGHT` factor is missing
from its `goldUSD`, so each leg is `0.3·goldUSD` and the basket splits
`0.4 : 1.5` instead of `0.4 : 0.6`); the sibling `computeUnitPrice` (v2
variant, `src/unnamed/part_000`) satisfies both identities for every input,
its five legs being `FX_WEIGHT * (goldUSD / GOLD_WEIGHT)` each. -/
theorem c6_fx_allocation_sum :
    (FX_LIST.foldl
        (fun acc c =>
          acc + (((computeUnitV3 1900 (fun _ => 5) initQState 0).1.fx c).usd))
        0
      ≠ (computeUnitV3 1900 (fun _ => 5) initQState 0).1.unit_usd
          * (1 - GOLD_WEIGHT)) ∧
    (((computeUnitV3 1900 (fun _ => 5) initQState 0).1.fx Ccy.BRL).usd
      ≠ (computeUnitV3 1900 (fun _ => 5) initQState 0).1.unit_usd
          * FX_WEIGHT) ∧
    (∀ (gs : ℚ) (fxSpot : Ccy → ℚ) (s : QState) (now : Int),
      (computeUnitPrice gs fxSpot s now).1.unit_usd * (1 - GOLD_WEIGHT)
        = FX_LIST.foldl
            (fun acc _ =>
              acc + FX_WEIGHT *
                (UNIT_BASE_GOLD_G / GOLD_G_PER_OZ
                    * (computeUnitPrice gs fxSpot s now).1.gold_usd_per_oz_twap
                    * GOLD_WEIGHT / GOLD_WEIGHT))
            0 ∧
      (computeUnitPrice gs fxSpot s now).1.unit_usd * FX_WEIGHT
        = FX_WEIGHT *
            (UNIT_BASE_GOLD_G / GOLD_G_PER_OZ
                * (computeUnitPrice gs fxSpot s now).1.gold_usd_per_oz_twap
                * GOLD_WEIGHT / GOLD_WEIGHT)) := by
  have hg : twapZero (store [] (1900 : ℚ) 0) = 1900 := twapZero_store_nil 1900 0
  refine ⟨?_, ?_, ?_⟩
  · simp only [computeUnitV3, initQState, FX_LIST, List.foldl_cons,
      List.foldl_nil]
    rw [hg]
    norm_num [UNIT_BASE_GOLD_G, GOLD_G_PER_OZ, GOLD_WEIGHT, FX_WEIGHT]
  · simp only [computeUnitV3, initQState, FX_LIST, List.foldl_cons,
      List.foldl_nil]
    rw [hg]
    norm_num [UNIT_BASE_GOLD_G, GOLD_G_PER_OZ, GOLD_WEIGHT, FX_WEIGHT]
  · intro gs fxSpot s now
    simp only [computeUnitPrice, FX_LIST, List.foldl_cons, List.foldl_nil]
    generalize twapZero (store s.goldHistory gs now) = g
    constructor <;>
      · field_simp [GOLD_WEIGHT, GOLD_G_PER_OZ, FX_WEIGHT]
        ring
